import Mathlib

/-!
Verification of the memory sub-allocator of `pkg/vk/memory.go` (christerso/vulkan-go).

The Go code is shallowly embedded: `vulkan.DeviceSize` (a `uint64`) is modelled as `Nat`,
with explicit `% 2 ^ 64` wrapping exactly where the Go arithmetic can wrap (the
`alignedSize` computation and the allocator's running `totalAllocated` counter);
everywhere else the tracked quantities are bounded by the pool size in every reachable
state, so plain `Nat` arithmetic coincides with the `uint64` arithmetic of the source.
Go slices become `List`s, `map[K]V` becomes an association list with unique keys,
mutation becomes explicit state passing, and fallible functions return `Except`.
Mutexes are dropped: every claim is about the sequential behaviour of one call chain.
-/

namespace VkGo

/-- `2 ^ 64`, the modulus of Go's `uint64` (`vulkan.DeviceSize`). -/
def W : Nat := 2 ^ 64

/-- Bitwise complement of a `uint64` value, as used by Go's `&^` operator. -/
def comp64 (m : Nat) : Nat := W - 1 - m % W

/-- The `alignedSize` computation of `MemoryPool.Allocate`:
`(size + mp.BlockSize - 1) &^ (mp.BlockSize - 1)` in `uint64` arithmetic.
The `+ W` terms make the Go two's-complement wrap of `- 1` explicit on `Nat`. -/
def alignUp64 (size bs : Nat) : Nat :=
  ((size + bs + W - 1) % W) &&& comp64 ((bs + W - 1) % W)

/-- `MemoryBlock`: a span within a pool's arena (`Offset`, `Size`, `InUse`). -/
structure MemoryBlock where
  offset : Nat
  size : Nat
  inUse : Bool
deriving Repr, DecidableEq, Inhabited

/-- `MemoryAllocation`: the handle returned by `MemoryPool.Allocate`.
The Go struct's `Mapped` pointer and `Pool` back-reference are omitted: the pool is
threaded explicitly through the state-passing embedding, and no claim concerns mapping.
Note the struct records no offset, only `Size` (relevant to `MemoryPool.Free`). -/
structure MemoryAllocation where
  memory : Nat
  size : Nat
  typeIndex : Nat
  properties : Nat
  refCount : Nat
deriving Repr, DecidableEq

/-- `MemoryPool`: one arena with its free and used block lists (mutex dropped). -/
structure MemoryPool where
  memory : Nat
  size : Nat
  typeIndex : Nat
  properties : Nat
  blockSize : Nat
  freeBlocks : List MemoryBlock
  usedBlocks : List MemoryBlock
deriving Repr, DecidableEq

/-- Error values of the pool operations.
`outOfPoolMemory` is Go's `"insufficient space in pool"`;
`allocationNotFound` is Go's `"allocation not found in pool"`. -/
inductive PoolError where
  | outOfPoolMemory
  | allocationNotFound
deriving Repr, DecidableEq

/-- `MemoryAllocator.createPool(typeIndex, size)`. The `Properties` field is copied
from the device's memory-type table in Go; the flags value is passed in here since the
device query is an external collaborator. `Memory` is the placeholder `DeviceSize(size)`,
`BlockSize` is the fixed 64 KiB granularity, and the free list starts as one block
spanning the whole arena. -/
def createPool (typeIndex properties size : Nat) : MemoryPool :=
  { memory := size
    size := size
    typeIndex := typeIndex
    properties := properties
    blockSize := 64 * 1024
    freeBlocks := [⟨0, size, false⟩]
    usedBlocks := [] }

/-- `MemoryPool.Allocate(size)`. Faithful translation of the Go body:
round the size up to the block granularity, scan `FreeBlocks` for the first block
that fits, append the tail remainder as a new free block when the fit is strict,
append the used block, then remove the matched free slot by Go's swap-with-last
idiom (`FreeBlocks[i] = FreeBlocks[len-1]; FreeBlocks = FreeBlocks[:len-1]`). -/
def MemoryPool.allocate (mp : MemoryPool) (size : Nat) :
    Except PoolError (MemoryAllocation × MemoryPool) :=
  let alignedSize := alignUp64 size mp.blockSize
  match mp.freeBlocks.findIdx? (fun b => decide (alignedSize ≤ b.size)) with
  | none => .error .outOfPoolMemory
  | some i =>
    let block := mp.freeBlocks.getD i default
    let fbs1 :=
      if alignedSize < block.size then
        mp.freeBlocks ++ [⟨block.offset + alignedSize, block.size - alignedSize, false⟩]
      else
        mp.freeBlocks
    let used := mp.usedBlocks ++ [⟨block.offset, alignedSize, true⟩]
    let fbs2 :=
      if i < fbs1.length - 1 then
        (fbs1.set i (fbs1.getLastD default)).dropLast
      else
        fbs1.dropLast
    .ok ({ memory := mp.memory
           size := alignedSize
           typeIndex := mp.typeIndex
           properties := mp.properties
           refCount := 1 },
         { mp with freeBlocks := fbs2, usedBlocks := used })

/-- `MemoryPool.Free(allocation)`. Faithful translation of the Go body, including its
defect: the loop matches `block.Offset == 0` (the source marks this
`TODO: Proper offset matching`), so the `allocation` argument is never inspected.
The matched used block is removed order-preservingly
(`append(UsedBlocks[:i], UsedBlocks[i+1:]...)`) and appended to the free list;
the `TODO: Coalesce adjacent free blocks` step is absent. -/
def MemoryPool.free (mp : MemoryPool) (_allocation : MemoryAllocation) :
    Except PoolError MemoryPool :=
  match mp.usedBlocks.findIdx? (fun b => b.offset == 0) with
  | none => .error .allocationNotFound
  | some i =>
    let freed := mp.usedBlocks.getD i default
    .ok { mp with
          usedBlocks := mp.usedBlocks.eraseIdx i
          freeBlocks := mp.freeBlocks ++ [⟨freed.offset, freed.size, false⟩] }

/-- `PoolStats` snapshot type. -/
structure PoolStats where
  totalSize : Nat
  usedSize : Nat
  freeSize : Nat
  blockCount : Nat
  typeIndex : Nat
  properties : Nat
deriving Repr, DecidableEq

/-- `MemoryPool.GetStats()`: sums the used-block sizes and reports
`FreeSize = Size - usedSize`. In every reachable pool state the used sizes sum to at
most `Size` (proved below), so the `uint64` accumulation and subtraction of the Go
code coincide with this `Nat` version. -/
def MemoryPool.getStats (mp : MemoryPool) : PoolStats :=
  let usedSize := mp.usedBlocks.foldl (fun acc b => acc + b.size) 0
  { totalSize := mp.size
    usedSize := usedSize
    freeSize := mp.size - usedSize
    blockCount := mp.usedBlocks.length + mp.freeBlocks.length
    typeIndex := mp.typeIndex
    properties := mp.properties }

/-- Total number of bytes covered by a block list. -/
def sumSize (bs : List MemoryBlock) : Nat := (bs.map MemoryBlock.size).sum

/-- Scenario runner: on a fresh pool of the given arena size, `Allocate(req)` and then
immediately `Free` the returned handle; `some` of the resulting pool when both calls
succeed. -/
def afterRoundTrip (size req : Nat) : Option MemoryPool :=
  match (createPool 0 0 size).allocate req with
  | .error _ => none
  | .ok (a, p1) =>
    match p1.free a with
    | .error _ => none
    | .ok p2 => some p2

/-- Scenario runner: on a fresh pool of the given arena size, two allocations followed
by `Free` of the second one; `some` of the resulting pool when all calls succeed. -/
def afterTwoAllocFreeSecond (size req1 req2 : Nat) : Option MemoryPool :=
  match (createPool 0 0 size).allocate req1 with
  | .error _ => none
  | .ok (_, p1) =>
    match p1.allocate req2 with
    | .error _ => none
    | .ok (a2, p2) =>
      match p2.free a2 with
      | .error _ => none
      | .ok p3 => some p3

/-- Spec-side adjacency test: does the free list contain two distinct blocks `a`, `b`
with `a.offset + a.size = b.offset`? -/
def hasAdjacentFreeBlocks (mp : MemoryPool) : Bool :=
  (List.range mp.freeBlocks.length).any fun i =>
    (List.range mp.freeBlocks.length).any fun j =>
      i != j &&
        (mp.freeBlocks.getD i default).offset + (mp.freeBlocks.getD i default).size
          == (mp.freeBlocks.getD j default).offset

/-- The requested size rounded up to the next multiple of the 64 KiB block
granularity, as the spec phrases `alignedSize`. -/
def alignedTo64K (s : Nat) : Nat := 65536 * ((s + 65535) / 65536)

/-- Pool states reachable from `createPool` by `Allocate`/`Free` calls. Both methods
return before mutating the pool on every error path, so failed calls leave the state
unchanged and only successful calls appear as steps. -/
inductive PoolReaches (typeIndex properties size : Nat) : MemoryPool → Prop where
  | init : PoolReaches typeIndex properties size (createPool typeIndex properties size)
  | alloc {mp : MemoryPool} {s : Nat} {a : MemoryAllocation} {mp' : MemoryPool}
      (h : PoolReaches typeIndex properties size mp)
      (hs : mp.allocate s = .ok (a, mp')) : PoolReaches typeIndex properties size mp'
  | free {mp : MemoryPool} {a : MemoryAllocation} {mp' : MemoryPool}
      (h : PoolReaches typeIndex properties size mp)
      (hs : mp.free a = .ok mp') : PoolReaches typeIndex properties size mp'

/-! ### The top-level `MemoryAllocator` -/

/-- Error kinds of the allocator-level code paths the claims observe.
`tooManyAllocations` is Go's `"maximum number of allocations (%d) reached"`,
`noSuitableMemoryType` is `"no suitable memory type found"`,
`nilAllocation` is `"cannot free nil allocation"`,
`allocationNotFound` is `"allocation not found in allocator"`,
`poolFailed` wraps an error propagated from `MemoryPool.Free`, and
`allocationFailed` stands for the remaining failing allocation paths. -/
inductive AllocError where
  | tooManyAllocations
  | noSuitableMemoryType
  | nilAllocation
  | allocationNotFound
  | allocationFailed
  | poolFailed (e : PoolError)
deriving Repr, DecidableEq

/-- `MemoryAllocator` state: the allocation table
(Go: `map[vulkan.DeviceSize]*MemoryAllocation`, keyed by the pointer-derived address of
each allocation and modelled as an association list of key and `Size`, the only stored
field the claims observe), the running `totalAllocated` counter (`uint64`), and the
`maxAllocations` cap (`uint32`). The `device` handle and the `pools` list are omitted:
no claim at this level depends on them. -/
structure MemoryAllocator where
  allocations : List (Nat × Nat)
  totalAllocated : Nat
  maxAllocations : Nat
deriving Repr, DecidableEq

/-- `NewMemoryAllocator(device)`: empty table, zero total, cap 4096. -/
def newMemoryAllocator : MemoryAllocator :=
  { allocations := [], totalAllocated := 0, maxAllocations := 4096 }

/-- Go map lookup `ma.allocations[key]`, returning the stored allocation's size. -/
def MemoryAllocator.lookup (ma : MemoryAllocator) (key : Nat) : Option Nat :=
  (ma.allocations.find? (fun e => e.1 == key)).map (fun e => e.2)

/-- The registration step every successful `Allocate` path performs:
`ma.allocations[key] = alloc; ma.totalAllocated += alloc.Size` (`uint64` addition). -/
def MemoryAllocator.record (ma : MemoryAllocator) (key size : Nat) : MemoryAllocator :=
  { ma with
    allocations := (key, size) :: ma.allocations
    totalAllocated := (ma.totalAllocated + size) % W }

/-- Outcome of the pool-search / direct-allocation machinery inside `Allocate` (the
part that talks to pools and the device), abstracted as an oracle: either some path
produced an allocation — registered under the new allocation's pointer-derived `key`
with its rounded `size` — or every path failed with some error. -/
inductive AllocOutcome where
  | success (key size : Nat)
  | failure (e : AllocError)
deriving Repr

/-- `MemoryAllocator.Allocate`: the cap check
`uint32(len(ma.allocations)) >= ma.maxAllocations` runs before anything else and
returns `TooManyAllocations` with the state untouched; otherwise the pool machinery's
outcome decides the result and a success is recorded in the table. (On some failure
paths Go appends a fresh pool to `ma.pools`; `pools` is outside this state and the
table and counter are untouched there.) -/
def MemoryAllocator.allocate (ma : MemoryAllocator) (o : AllocOutcome) :
    Except AllocError (Nat × Nat) × MemoryAllocator :=
  if ma.maxAllocations ≤ ma.allocations.length % 2 ^ 32 then
    (.error .tooManyAllocations, ma)
  else
    match o with
    | .success key size => (.ok (key, size), ma.record key size)
    | .failure e => (.error e, ma)

/-- The argument of `MemoryAllocator.Free`: the allocation's pointer-derived `key`,
its `Size`, and the result `allocation.Pool.Free(allocation)` returns when the entry
is reached (`none` models both a nil `Pool` — a direct allocation — and a successful
pool free). -/
structure AllocRef where
  key : Nat
  size : Nat
  poolFree : Option AllocError

/-- `MemoryAllocator.Free`, which is `freeAllocationUnsafe` under the lock: a nil
allocation and a key missing from the table fail with the table and counter untouched;
otherwise the entry is deleted, `Size` is subtracted from `totalAllocated` (`uint64`
subtraction), and the owning pool's `Free` result — possibly an error — is returned. -/
def MemoryAllocator.freeAlloc (ma : MemoryAllocator) (allocation : Option AllocRef) :
    Option AllocError × MemoryAllocator :=
  match allocation with
  | none => (some .nilAllocation, ma)
  | some a =>
    match ma.lookup a.key with
    | none => (some .allocationNotFound, ma)
    | some _ =>
      (a.poolFree,
       { ma with
         allocations := ma.allocations.eraseP (fun e => e.1 == a.key)
         totalAllocated := (ma.totalAllocated + W - a.size % W) % W })

/-- Sum of the `Size` fields of all live entries of the allocation table. -/
def sumVals (l : List (Nat × Nat)) : Nat := (l.map Prod.snd).sum

/-- Allocator states reachable from `NewMemoryAllocator` by `Allocate` and `Free`
calls. The side conditions record facts Go's runtime guarantees: a freshly allocated
`*MemoryAllocation` has an address distinct from every live allocation and a `uint64`
field is below `2 ^ 64` (`hfresh`); and a table entry found under an allocation's own
pointer-derived key is that very allocation, so the recorded size is the argument's
size (`hown`). -/
inductive Reaches : MemoryAllocator → Prop where
  | init : Reaches newMemoryAllocator
  | alloc {ma : MemoryAllocator} (o : AllocOutcome) (h : Reaches ma)
      (hfresh : ∀ key size, o = .success key size → ma.lookup key = none ∧ size < W) :
      Reaches (ma.allocate o).2
  | free {ma : MemoryAllocator} (a : Option AllocRef) (h : Reaches ma)
      (hown : ∀ r, a = some r → r.size < W ∧
          (ma.lookup r.key = none ∨ ma.lookup r.key = some r.size)) :
      Reaches (ma.freeAlloc a).2

/-! ### Memory-type resolution -/

/-- Memory property flag bits (`pkg/vk` constants, the standard Vulkan values). -/
def MemoryPropertyDeviceLocalBit : Nat := 0x00000001

/-- Host-visible property bit. -/
def MemoryPropertyHostVisibleBit : Nat := 0x00000002

/-- Host-coherent property bit. -/
def MemoryPropertyHostCoherentBit : Nat := 0x00000004

/-- Host-cached property bit. -/
def MemoryPropertyHostCachedBit : Nat := 0x00000008

/-- Lazily-allocated property bit. -/
def MemoryPropertyLazilyAllocatedBit : Nat := 0x00000010

/-- The `MemoryUsage` enumeration. -/
inductive MemoryUsage where
  | unknown
  | gpuOnly
  | cpuOnly
  | cpuToGPU
  | gpuToCPU
  | cpuCopy
  | gpuLazilyAllocated
deriving Repr, DecidableEq

/-- `MemoryType` (the heap index is unread by `findMemoryType` and omitted). -/
structure MemoryType where
  propertyFlags : Nat
deriving Repr, DecidableEq, Inhabited

/-- `PhysicalDeviceMemoryProperties` (Go: `MemoryTypeCount` plus a fixed
`[32]MemoryType` array, modelled as a list; the heap fields are unread here). -/
structure PhysicalDeviceMemoryProperties where
  memoryTypeCount : Nat
  memoryTypes : List MemoryType
deriving Repr, DecidableEq

/-- `MemoryRequirements`. -/
structure MemoryRequirements where
  size : Nat
  alignment : Nat
  memoryTypeBits : Nat
deriving Repr, DecidableEq

/-- `AllocationCreateInfo` (the optional explicit pool and the user data are not
consulted by `findMemoryType` and are omitted). -/
structure AllocationCreateInfo where
  usage : MemoryUsage
  requiredFlags : Nat
  preferredFlags : Nat
deriving Repr, DecidableEq

/-- The `switch createInfo.Usage` at the top of `findMemoryType`: the usage-derived
bits are or-ed into the explicit required and preferred flags. -/
def resolvedFlags (ci : AllocationCreateInfo) : Nat × Nat :=
  match ci.usage with
  | .gpuOnly =>
      (ci.requiredFlags ||| MemoryPropertyDeviceLocalBit, ci.preferredFlags)
  | .cpuOnly =>
      (ci.requiredFlags ||| (MemoryPropertyHostVisibleBit ||| MemoryPropertyHostCoherentBit),
       ci.preferredFlags)
  | .cpuToGPU =>
      (ci.requiredFlags ||| MemoryPropertyHostVisibleBit,
       ci.preferredFlags ||| MemoryPropertyDeviceLocalBit)
  | .gpuToCPU =>
      (ci.requiredFlags ||| MemoryPropertyHostVisibleBit,
       ci.preferredFlags ||| MemoryPropertyHostCachedBit)
  | .cpuCopy =>
      (ci.requiredFlags ||| (MemoryPropertyHostVisibleBit ||| MemoryPropertyHostCoherentBit),
       ci.preferredFlags)
  | .gpuLazilyAllocated =>
      (ci.requiredFlags ||| MemoryPropertyDeviceLocalBit,
       ci.preferredFlags ||| MemoryPropertyLazilyAllocatedBit)
  | .unknown => (ci.requiredFlags, ci.preferredFlags)

/-- The `i`-th memory type's property flags (entries past the populated prefix of the
Go `[32]` array are zero-valued). -/
def typeFlags (memProps : PhysicalDeviceMemoryProperties) (i : Nat) : Nat :=
  (memProps.memoryTypes.getD i default).propertyFlags

/-- The mask test `requirements.MemoryTypeBits & (1 << i) != 0` in `uint32`
arithmetic. -/
def typeEnabled (bits i : Nat) : Bool :=
  (bits &&& ((1 <<< i) % 2 ^ 32)) != 0

/-- `MemoryAllocator.findMemoryType`: two index scans from 0 to
`MemoryTypeCount - 1`; the first pass demands the type's flags contain all required
and all preferred bits, the second pass only the required bits; no match in either
pass yields the `"no suitable memory type found"` error. The physical-device memory
properties are a parameter since the device query is an external collaborator. -/
def findMemoryType (memProps : PhysicalDeviceMemoryProperties)
    (requirements : MemoryRequirements) (createInfo : AllocationCreateInfo) :
    Except AllocError Nat :=
  let requiredFlags := (resolvedFlags createInfo).1
  let preferredFlags := (resolvedFlags createInfo).2
  match (List.range memProps.memoryTypeCount).find? (fun i =>
      typeEnabled requirements.memoryTypeBits i &&
      (typeFlags memProps i &&& requiredFlags == requiredFlags) &&
      (typeFlags memProps i &&& preferredFlags == preferredFlags)) with
  | some i => .ok i
  | none =>
    match (List.range memProps.memoryTypeCount).find? (fun i =>
        typeEnabled requirements.memoryTypeBits i &&
        (typeFlags memProps i &&& requiredFlags == requiredFlags)) with
    | some i => .ok i
    | none => .error .noSuitableMemoryType

/-- Spec-side: index `i` is enabled in the request's type bitmask and its memory
type's property flags are a superset of the needed flag bits. -/
def passOk (memProps : PhysicalDeviceMemoryProperties) (bits needed i : Nat) : Prop :=
  bits.testBit i ∧ typeFlags memProps i &&& needed = needed

/-! ### Accounting lemmas for block lists -/

theorem sumSize_nil : sumSize ([] : List MemoryBlock) = 0 := rfl

theorem sumSize_cons (x : MemoryBlock) (t : List MemoryBlock) :
    sumSize (x :: t) = x.size + sumSize t := by
  simp [sumSize]

theorem sumSize_append (l1 l2 : List MemoryBlock) :
    sumSize (l1 ++ l2) = sumSize l1 + sumSize l2 := by
  simp [sumSize]

theorem sumSize_set (l : List MemoryBlock) (i : Nat) (v : MemoryBlock)
    (h : i < l.length) :
    sumSize (l.set i v) + (l.getD i default).size = sumSize l + v.size := by
  induction l generalizing i with
  | nil => simp at h
  | cons x t ih =>
    cases i with
    | zero => simp [sumSize_cons]; omega
    | succ n =>
      have hn : n < t.length := by simpa using h
      have := ih n hn
      simp only [List.set_cons_succ, sumSize_cons, List.getD_cons_succ] at *
      omega

theorem sumSize_dropLast (l : List MemoryBlock) (h : l ≠ []) :
    sumSize l.dropLast + (l.getLastD default).size = sumSize l := by
  induction l with
  | nil => simp at h
  | cons x t ih =>
    cases t with
    | nil => simp [sumSize]
    | cons y u =>
      have := ih (by simp)
      simp only [List.dropLast_cons₂, sumSize_cons, List.getLastD_cons] at *
      omega

theorem sumSize_eraseIdx (l : List MemoryBlock) (i : Nat) (h : i < l.length) :
    sumSize (l.eraseIdx i) + (l.getD i default).size = sumSize l := by
  induction l generalizing i with
  | nil => simp at h
  | cons x t ih =>
    cases i with
    | zero => simp [sumSize_cons]; omega
    | succ n =>
      have hn : n < t.length := by simpa using h
      have := ih n hn
      simp only [List.eraseIdx_cons_succ, sumSize_cons, List.getD_cons_succ] at *
      omega

theorem getLastD_set_lt {α : Type} (l : List α) (i : Nat) (v d : α)
    (h : i + 1 < l.length) :
    (l.set i v).getLastD d = l.getLastD d := by
  rw [List.getLastD_eq_getLast?, List.getLastD_eq_getLast?, List.getLast?_eq_getElem?,
    List.getLast?_eq_getElem?, List.length_set, List.getElem?_set_ne (by omega)]

/-! ### The `alignedSize` computation -/

/-- Clearing the low `k` bits of a `uint64`-range value rounds it down to a
multiple of `2 ^ k`. -/
theorem land_high (x k n : Nat) (hx : x < 2 ^ n) (hk : k ≤ n) :
    x &&& (2 ^ n - 2 ^ k) = 2 ^ k * (x / 2 ^ k) := by
  have hmask : 2 ^ n - 2 ^ k = (2 ^ (n - k) - 1) <<< k := by
    rw [Nat.shiftLeft_eq, Nat.sub_mul, ← Nat.pow_add, Nat.one_mul]
    congr 2
    omega
  have hq : 2 ^ k * (x / 2 ^ k) = (x >>> k) <<< k := by
    rw [Nat.shiftRight_eq_div_pow, Nat.shiftLeft_eq, Nat.mul_comm]
  rw [hmask, hq]
  apply Nat.eq_of_testBit_eq
  intro i
  rw [Nat.testBit_land, Nat.testBit_shiftLeft, Nat.testBit_shiftLeft,
    Nat.testBit_shiftRight, Nat.testBit_two_pow_sub_one]
  by_cases hik : k ≤ i
  · have hki : k + (i - k) = i := by omega
    rw [hki]
    by_cases hin : i < n
    · simp [ge_iff_le, hik, show i - k < n - k by omega]
    · have hfalse : x.testBit i = false :=
        Nat.testBit_lt_two_pow
          (lt_of_lt_of_le hx (Nat.pow_le_pow_right (by norm_num) (by omega)))
      simp [ge_iff_le, hik, hfalse, show ¬(i - k < n - k) by omega]
  · simp [ge_iff_le, hik]

/-- At the 64 KiB granularity the code uses, `alignedSize` is the requested size
rounded up to the next multiple of `BlockSize`. -/
theorem alignUp64_65536 (s : Nat) (h : s + 65535 < W) :
    alignUp64 s 65536 = 65536 * ((s + 65535) / 65536) := by
  have h1 : (s + 65536 + W - 1) % W = s + 65535 := by
    have he : s + 65536 + W - 1 = s + 65535 + W := by
      have : 1 ≤ W := Nat.one_le_two_pow
      omega
    rw [he, Nat.add_mod_right, Nat.mod_eq_of_lt h]
  have h2 : comp64 ((65536 + W - 1) % W) = 2 ^ 64 - 2 ^ 16 := by decide
  unfold alignUp64
  rw [h1, h2]
  have := land_high (s + 65535) 16 64 h (by omega)
  simpa using this

/-! ### Conservation of bytes across pool operations -/

theorem foldl_add_size (l : List MemoryBlock) (n : Nat) :
    l.foldl (fun acc b => acc + b.size) n = n + sumSize l := by
  induction l generalizing n with
  | nil => simp [sumSize]
  | cons x t ih => simp only [List.foldl_cons, sumSize_cons, ih]; omega

/-- `findIdx?` characterised through `getD`: the found index is in range, its element
satisfies the predicate, and every earlier element fails it. -/
theorem findIdx?_some_getD {α : Type} [Inhabited α] {p : α → Bool} {l : List α} {i : Nat}
    (h : l.findIdx? p = some i) :
    i < l.length ∧ p (l.getD i default) = true ∧ ∀ j, j < i → p (l.getD j default) = false := by
  obtain ⟨hi, hp, hleast⟩ := List.findIdx?_eq_some_iff_getElem.mp h
  refine ⟨hi, ?_, ?_⟩
  · simpa [List.getD_eq_getElem?_getD, List.getElem?_eq_getElem hi] using hp
  · intro j hj
    have hjl : j < l.length := by omega
    have hj2 := hleast j hj
    simp only [Bool.not_eq_true] at hj2
    simpa [List.getD_eq_getElem?_getD, List.getElem?_eq_getElem hjl] using hj2

/-- A successful `MemoryPool.Allocate` moves bytes from the free list to the used list
without creating or destroying any: the combined coverage is unchanged. -/
theorem allocate_ok_conserves (mp : MemoryPool) (s : Nat) (a : MemoryAllocation)
    (mp' : MemoryPool) (h : mp.allocate s = .ok (a, mp')) :
    sumSize mp'.freeBlocks + sumSize mp'.usedBlocks
        = sumSize mp.freeBlocks + sumSize mp.usedBlocks
      ∧ mp'.size = mp.size ∧ mp'.blockSize = mp.blockSize := by
  simp only [MemoryPool.allocate] at h
  cases hf : mp.freeBlocks.findIdx? (fun b => decide (alignUp64 s mp.blockSize ≤ b.size)) with
  | none => rw [hf] at h; exact absurd h (by simp)
  | some i =>
    rw [hf] at h
    obtain ⟨hi, hp, -⟩ := List.findIdx?_eq_some_iff_getElem.mp hf
    simp only [decide_eq_true_eq] at hp
    have hblock : mp.freeBlocks.getD i default = mp.freeBlocks[i] := by
      simp [List.getD_eq_getElem?_getD, List.getElem?_eq_getElem hi]
    rw [← hblock] at hp
    simp only [Except.ok.injEq, Prod.mk.injEq] at h
    obtain ⟨-, hmp⟩ := h
    subst hmp
    set A := alignUp64 s mp.blockSize with hA
    refine ⟨?_, rfl, rfl⟩
    dsimp only
    rw [sumSize_append, sumSize_cons, sumSize_nil]
    dsimp only
    by_cases hsplit : A < (mp.freeBlocks.getD i default).size
    · rw [if_pos hsplit]
      set nf : MemoryBlock :=
        ⟨(mp.freeBlocks.getD i default).offset + A,
         (mp.freeBlocks.getD i default).size - A, false⟩ with hnf
      have hc : i < (mp.freeBlocks ++ [nf]).length - 1 := by
        simp only [List.length_append, List.length_cons, List.length_nil]
        omega
      rw [if_pos hc]
      have hlast : (mp.freeBlocks ++ [nf]).getLastD default = nf :=
        List.getLastD_concat _ _ _
      rw [hlast, List.set_append_left _ _ hi, List.dropLast_concat]
      have hset := sumSize_set mp.freeBlocks i nf hi
      have hnfs : nf.size = (mp.freeBlocks.getD i default).size - A := rfl
      omega
    · rw [if_neg hsplit]
      have heq : (mp.freeBlocks.getD i default).size = A := by omega
      by_cases hlt : i < mp.freeBlocks.length - 1
      · rw [if_pos hlt]
        set last := mp.freeBlocks.getLastD default with hlastd
        have hne : mp.freeBlocks.set i last ≠ [] := by
          intro hc
          have hlen : (mp.freeBlocks.set i last).length = 0 := by rw [hc]; rfl
          simp only [List.length_set] at hlen
          omega
        have h1 := sumSize_dropLast (mp.freeBlocks.set i last) hne
        have h2 : (mp.freeBlocks.set i last).getLastD default = last :=
          getLastD_set_lt mp.freeBlocks i last default (by omega)
        have h3 := sumSize_set mp.freeBlocks i last hi
        rw [h2] at h1
        omega
      · rw [if_neg hlt]
        have hne : mp.freeBlocks ≠ [] := by
          intro hc
          rw [hc] at hi
          simp at hi
        have h1 := sumSize_dropLast mp.freeBlocks hne
        have h2 : mp.freeBlocks.getLastD default = mp.freeBlocks.getD i default := by
          have hieq : mp.freeBlocks.length - 1 = i := by omega
          rw [List.getLastD_eq_getLast?, List.getLast?_eq_getElem?,
            List.getD_eq_getElem?_getD, hieq]
        rw [h2] at h1
        omega

/-- A successful `MemoryPool.Free` moves one block from the used list to the free list
without changing the combined coverage. -/
theorem free_ok_conserves (mp : MemoryPool) (a : MemoryAllocation) (mp' : MemoryPool)
    (h : mp.free a = .ok mp') :
    sumSize mp'.freeBlocks + sumSize mp'.usedBlocks
        = sumSize mp.freeBlocks + sumSize mp.usedBlocks
      ∧ mp'.size = mp.size ∧ mp'.blockSize = mp.blockSize := by
  simp only [MemoryPool.free] at h
  cases hf : mp.usedBlocks.findIdx? (fun b => b.offset == 0) with
  | none => rw [hf] at h; exact absurd h (by simp)
  | some i =>
    rw [hf] at h
    obtain ⟨hi, -, -⟩ := List.findIdx?_eq_some_iff_getElem.mp hf
    simp only [Except.ok.injEq] at h
    subst h
    refine ⟨?_, rfl, rfl⟩
    dsimp only
    rw [sumSize_append, sumSize_cons, sumSize_nil]
    dsimp only
    have h1 := sumSize_eraseIdx mp.usedBlocks i hi
    omega

/-- C9: in every pool state reachable from a freshly created pool by `Allocate` and
`Free` calls, the free blocks and used blocks together cover exactly `Size` bytes, and
`GetStats` reports `FreeSize = Size - Σ usedBlock.size`, which therefore equals the
actual total free bytes `Σ freeBlock.size`. -/
theorem pool_coverage_and_stats (ti pr sz : Nat) (mp : MemoryPool)
    (h : PoolReaches ti pr sz mp) :
    sumSize mp.freeBlocks + sumSize mp.usedBlocks = mp.size
      ∧ mp.getStats.freeSize = mp.size - sumSize mp.usedBlocks
      ∧ mp.getStats.freeSize = sumSize mp.freeBlocks := by
  have main : sumSize mp.freeBlocks + sumSize mp.usedBlocks = mp.size := by
    induction h with
    | init => simp [createPool, sumSize]
    | alloc hprev hs ih =>
      obtain ⟨hc, hsz, -⟩ := allocate_ok_conserves _ _ _ _ hs
      omega
    | free hprev hs ih =>
      obtain ⟨hc, hsz, -⟩ := free_ok_conserves _ _ _ hs
      omega
  have hstats : mp.getStats.freeSize = mp.size - sumSize mp.usedBlocks := by
    simp [MemoryPool.getStats, foldl_add_size]
  exact ⟨main, hstats, by omega⟩

/-- Witness for C9 at the spec's example pool (1 MiB arena), reachable via
`PoolReaches.init`. -/
theorem pool_coverage_and_stats_witness :
    sumSize (createPool 0 0 1048576).freeBlocks + sumSize (createPool 0 0 1048576).usedBlocks
        = (createPool 0 0 1048576).size
      ∧ (createPool 0 0 1048576).getStats.freeSize
        = (createPool 0 0 1048576).size - sumSize (createPool 0 0 1048576).usedBlocks
      ∧ (createPool 0 0 1048576).getStats.freeSize
        = sumSize (createPool 0 0 1048576).freeBlocks :=
  pool_coverage_and_stats 0 0 1048576 _ PoolReaches.init

end VkGo

namespace VkGo

/-- C1: `MemoryPool.Free` is claimed to remove exactly the used block whose offset
equals the freed allocation's offset. The code instead always removes the first used
block with `Offset == 0` (marked `TODO: Proper offset matching` in the source):
after `a := Allocate(1)` (block `[0, 65536)`) and `b := Allocate(1)`
(block `[65536, 131072)`) on a fresh 256 MiB pool, `Free(b)` succeeds but removes
`a`'s block at offset 0, leaving `b`'s block `[65536, 131072)` in the used list and
returning `[0, 65536)` to the free list. -/
theorem free_matches_offset_zero_not_allocation :
    (afterTwoAllocFreeSecond 268435456 1 1).map MemoryPool.usedBlocks =
        some [⟨65536, 65536, true⟩]
      ∧ (afterTwoAllocFreeSecond 268435456 1 1).map MemoryPool.freeBlocks =
        some [⟨131072, 268304384, false⟩, ⟨0, 65536, false⟩] := by
  decide

/-- C2: after a successful `MemoryPool.Free` the free list is claimed to contain no two
blocks adjacent by offset. The code performs no coalescing (marked
`TODO: Coalesce adjacent free blocks` in the source): on a fresh 256 MiB pool,
`Allocate(65536)` followed by `Free` leaves the free list
`[{65536, 268369920}, {0, 65536}]`, whose blocks are adjacent
(`0 + 65536 = 65536`). -/
theorem free_leaves_adjacent_free_blocks :
    (afterRoundTrip 268435456 65536).map MemoryPool.freeBlocks =
        some [⟨65536, 268369920, false⟩, ⟨0, 65536, false⟩]
      ∧ (afterRoundTrip 268435456 65536).map hasAdjacentFreeBlocks = some true := by
  decide

/-- C4: `Allocate(n)` then immediately `Free` on a fresh pool is claimed to restore the
single free block spanning the arena. Because the freed block is never coalesced with
its neighbour, a fresh 256 MiB pool after `Allocate(65536)`; `Free` has used list `[]`
but free list `[{65536, 268369920}, {0, 65536}]`, not the original
`[{0, 268435456}]`. -/
theorem roundtrip_does_not_restore_pool :
    (afterRoundTrip 268435456 65536).map MemoryPool.usedBlocks = some []
      ∧ (afterRoundTrip 268435456 65536).map MemoryPool.freeBlocks =
        some [⟨65536, 268369920, false⟩, ⟨0, 65536, false⟩]
      ∧ (afterRoundTrip 268435456 65536).map MemoryPool.freeBlocks ≠
        some (createPool 0 0 268435456).freeBlocks := by
  decide

/-- C6 (counterexample): `MemoryPool.Allocate(0)` is claimed to fail with
`InvalidArgument` and leave the pool unmodified. The code has no zero-size check:
on a fresh 256 MiB pool it returns success with a zero-size allocation and appends a
zero-size used block `{0, 0}`. -/
theorem allocate_zero_succeeds :
    ((createPool 0 0 268435456).allocate 0).isOk = true
      ∧ ((createPool 0 0 268435456).allocate 0).map (fun r => (r.1.size, r.2.usedBlocks)) =
        .ok (0, [⟨0, 0, true⟩]) :=
  ⟨rfl, rfl⟩

end VkGo

namespace VkGo

/-- Shape of a successful `MemoryPool.Allocate`: the returned handle copies the pool's
arena handle, type index and property flags and carries `alignedSize`; the used block
`[offset, offset + alignedSize)` is appended; and when the matched free block is
strictly larger, slot `i` of the free list ends up holding the tail remainder
`[offset + alignedSize, end)`. -/
theorem allocate_some_shape (mp : MemoryPool) (s i : Nat)
    (hfi : mp.freeBlocks.findIdx?
        (fun b => decide (alignUp64 s mp.blockSize ≤ b.size)) = some i) :
    ∃ mp', mp.allocate s = .ok
        ({ memory := mp.memory
           size := alignUp64 s mp.blockSize
           typeIndex := mp.typeIndex
           properties := mp.properties
           refCount := 1 }, mp')
      ∧ mp'.usedBlocks = mp.usedBlocks ++
          [⟨(mp.freeBlocks.getD i default).offset, alignUp64 s mp.blockSize, true⟩]
      ∧ (alignUp64 s mp.blockSize < (mp.freeBlocks.getD i default).size →
          mp'.freeBlocks = mp.freeBlocks.set i
            ⟨(mp.freeBlocks.getD i default).offset + alignUp64 s mp.blockSize,
             (mp.freeBlocks.getD i default).size - alignUp64 s mp.blockSize,
             false⟩) := by
  obtain ⟨hi, -, -⟩ := List.findIdx?_eq_some_iff_getElem.mp hfi
  simp only [MemoryPool.allocate, hfi]
  refine ⟨_, rfl, rfl, ?_⟩
  intro hsplit
  dsimp only
  rw [if_pos hsplit]
  have hc : i < (mp.freeBlocks ++
      [(⟨(mp.freeBlocks.getD i default).offset + alignUp64 s mp.blockSize,
        (mp.freeBlocks.getD i default).size - alignUp64 s mp.blockSize,
        false⟩ : MemoryBlock)]).length - 1 := by
    simp only [List.length_append, List.length_cons, List.length_nil]
    omega
  rw [if_pos hc, List.getLastD_concat, List.set_append_left _ _ hi, List.dropLast_concat]

/-- C5 (counterexample): the claim quantifies over every requested size `s > 0`, but
at the `uint64` boundary it is false of the code. For `s = 2 ^ 64 - 1` the Go
computation `(s + BlockSize - 1) &^ (BlockSize - 1)` wraps: `alignedSize` is 0, not
the next multiple of `BlockSize` (mathematically `2 ^ 64`); and on a fresh 256 MiB
pool the call does not fail with `outOfPoolMemory` — it succeeds, handing out a
zero-size allocation and appending the zero-size used block `{0, 0}`. -/
theorem allocate_huge_size_wraps :
    alignUp64 (2 ^ 64 - 1) 65536 = 0
      ∧ alignUp64 (2 ^ 64 - 1) 65536 ≠ alignedTo64K (2 ^ 64 - 1)
      ∧ ((createPool 0 0 268435456).allocate (2 ^ 64 - 1)).map
          (fun r => (r.1.size, r.2.usedBlocks)) = .ok (0, [⟨0, 0, true⟩])
      ∧ ((createPool 0 0 268435456).allocate (2 ^ 64 - 1)).isOk = true :=
  ⟨by decide, by decide, rfl, rfl⟩

/-- C5 (amended): for every requested size `s > 0` with `s + 65535 < 2 ^ 64` — so the
`uint64` `alignedSize` computation does not wrap; for larger `s` it wraps to 0 and the
call silently succeeds with a zero-size block — `MemoryPool.Allocate`
rounds `s` up to the next multiple of the 64 KiB `BlockSize`; fails with
`outOfPoolMemory` when no free block is at least that large; and otherwise takes the
first fitting free block (every earlier block is too small), appends the used head
`[offset, offset + alignedSize)`, and, when the block is strictly larger, turns its
free-list slot into the tail remainder `[offset + alignedSize, end)`. -/
theorem allocate_first_fit_split (mp : MemoryPool) (s : Nat)
    (hbs : mp.blockSize = 65536) (hpos : 0 < s) (hbound : s + 65535 < W) :
    alignUp64 s mp.blockSize = alignedTo64K s
      ∧ ((∀ b ∈ mp.freeBlocks, b.size < alignedTo64K s) →
          mp.allocate s = .error .outOfPoolMemory)
      ∧ (∀ i, mp.freeBlocks.findIdx?
            (fun b => decide (alignedTo64K s ≤ b.size)) = some i →
          alignedTo64K s ≤ (mp.freeBlocks.getD i default).size
            ∧ (∀ j, j < i → (mp.freeBlocks.getD j default).size < alignedTo64K s)
            ∧ ∃ mp', mp.allocate s = .ok
                ({ memory := mp.memory
                   size := alignedTo64K s
                   typeIndex := mp.typeIndex
                   properties := mp.properties
                   refCount := 1 }, mp')
              ∧ mp'.usedBlocks = mp.usedBlocks ++
                  [⟨(mp.freeBlocks.getD i default).offset, alignedTo64K s, true⟩]
              ∧ (alignedTo64K s < (mp.freeBlocks.getD i default).size →
                  mp'.freeBlocks = mp.freeBlocks.set i
                    ⟨(mp.freeBlocks.getD i default).offset + alignedTo64K s,
                     (mp.freeBlocks.getD i default).size - alignedTo64K s,
                     false⟩)) := by
  have hA : alignUp64 s mp.blockSize = alignedTo64K s := by
    rw [hbs]
    exact alignUp64_65536 s hbound
  refine ⟨hA, ?_, ?_⟩
  · intro hall
    have hnone : mp.freeBlocks.findIdx?
        (fun b => decide (alignUp64 s mp.blockSize ≤ b.size)) = none := by
      refine List.findIdx?_eq_none_iff.mpr ?_
      intro x hx
      have := hall x hx
      simp only [decide_eq_false_iff_not, hA]
      omega
    simp only [MemoryPool.allocate, hnone]
  · intro i hfi
    rw [← hA] at hfi
    obtain ⟨hi, hp, hleast⟩ := findIdx?_some_getD hfi
    simp only [decide_eq_true_eq] at hp
    refine ⟨?_, ?_, ?_⟩
    · rw [← hA]
      exact hp
    · intro j hj
      have hj2 := hleast j hj
      simp only [decide_eq_false_iff_not] at hj2
      rw [← hA]
      omega
    · obtain ⟨mp', hok, hused, hfree⟩ := allocate_some_shape mp s i hfi
      rw [hA] at hok hused hfree
      exact ⟨mp', hok, hused, hfree⟩

/-- Witness for the amended C5 on a fresh 256 MiB pool with requested size 1. -/
theorem allocate_first_fit_split_witness :
    alignUp64 1 (createPool 0 0 268435456).blockSize = alignedTo64K 1
      ∧ ((∀ b ∈ (createPool 0 0 268435456).freeBlocks, b.size < alignedTo64K 1) →
          (createPool 0 0 268435456).allocate 1 = .error .outOfPoolMemory)
      ∧ (∀ i, (createPool 0 0 268435456).freeBlocks.findIdx?
            (fun b => decide (alignedTo64K 1 ≤ b.size)) = some i →
          alignedTo64K 1 ≤ ((createPool 0 0 268435456).freeBlocks.getD i default).size
            ∧ (∀ j, j < i →
                ((createPool 0 0 268435456).freeBlocks.getD j default).size < alignedTo64K 1)
            ∧ ∃ mp', (createPool 0 0 268435456).allocate 1 = .ok
                ({ memory := (createPool 0 0 268435456).memory
                   size := alignedTo64K 1
                   typeIndex := (createPool 0 0 268435456).typeIndex
                   properties := (createPool 0 0 268435456).properties
                   refCount := 1 }, mp')
              ∧ mp'.usedBlocks = (createPool 0 0 268435456).usedBlocks ++
                  [⟨((createPool 0 0 268435456).freeBlocks.getD i default).offset,
                    alignedTo64K 1, true⟩]
              ∧ (alignedTo64K 1 < ((createPool 0 0 268435456).freeBlocks.getD i default).size →
                  mp'.freeBlocks = (createPool 0 0 268435456).freeBlocks.set i
                    ⟨((createPool 0 0 268435456).freeBlocks.getD i default).offset +
                        alignedTo64K 1,
                     ((createPool 0 0 268435456).freeBlocks.getD i default).size -
                        alignedTo64K 1,
                     false⟩)) :=
  allocate_first_fit_split (createPool 0 0 268435456) 1 rfl (by decide) (by decide)

end VkGo

namespace VkGo

/-- C6 (amended): `MemoryPool.Allocate(0)` does not fail with an invalid-argument
error; the code has no zero-size check, so `alignedSize` is 0, the first free block
matches, and the call succeeds, returning a zero-size allocation and appending a
zero-size used block at the first free block's offset. -/
theorem allocate_zero_amended (mp : MemoryPool) (hbs : mp.blockSize = 65536)
    (hne : mp.freeBlocks ≠ []) :
    ∃ mp', mp.allocate 0 = .ok
        ({ memory := mp.memory
           size := 0
           typeIndex := mp.typeIndex
           properties := mp.properties
           refCount := 1 }, mp')
      ∧ mp'.usedBlocks = mp.usedBlocks ++
          [⟨(mp.freeBlocks.getD 0 default).offset, 0, true⟩] := by
  have hA : alignUp64 0 mp.blockSize = 0 := by rw [hbs]; decide
  have hfi : mp.freeBlocks.findIdx?
      (fun b => decide (alignUp64 0 mp.blockSize ≤ b.size)) = some 0 := by
    cases hcase : mp.freeBlocks with
    | nil => exact absurd hcase hne
    | cons x t => simp [hA]
  obtain ⟨mp', hok, hused, -⟩ := allocate_some_shape mp 0 0 hfi
  rw [hA] at hok hused
  exact ⟨mp', hok, hused⟩

/-- Witness for the amended C6 on a fresh 128 KiB pool. -/
theorem allocate_zero_amended_witness :
    ∃ mp', (createPool 0 0 131072).allocate 0 = .ok
        ({ memory := (createPool 0 0 131072).memory
           size := 0
           typeIndex := (createPool 0 0 131072).typeIndex
           properties := (createPool 0 0 131072).properties
           refCount := 1 }, mp')
      ∧ mp'.usedBlocks = (createPool 0 0 131072).usedBlocks ++
          [⟨((createPool 0 0 131072).freeBlocks.getD 0 default).offset, 0, true⟩] :=
  allocate_zero_amended (createPool 0 0 131072) rfl (by decide)

end VkGo

namespace VkGo

theorem sumVals_cons (e : Nat × Nat) (t : List (Nat × Nat)) :
    sumVals (e :: t) = e.2 + sumVals t := by
  simp [sumVals]

theorem sumVals_append (l1 l2 : List (Nat × Nat)) :
    sumVals (l1 ++ l2) = sumVals l1 + sumVals l2 := by
  simp [sumVals]

/-- The combined allocator invariant, by induction over reachable states: the
`uint64` counter tracks the byte sum of the table, the table never exceeds the cap,
the cap stays at its initial 4096, every stored size is a `uint64` value, and the
pointer-derived keys are pairwise distinct. -/
theorem reaches_invariant (ma : MemoryAllocator) (h : Reaches ma) :
    ma.totalAllocated = sumVals ma.allocations % W
      ∧ ma.allocations.length ≤ ma.maxAllocations
      ∧ ma.maxAllocations = 4096
      ∧ (∀ e ∈ ma.allocations, e.2 < W)
      ∧ (ma.allocations.map Prod.fst).Nodup := by
  induction h with
  | init => simp [newMemoryAllocator, sumVals]
  | @alloc ma o h hfresh ih =>
    obtain ⟨ih1, ih2, ih3, ih4, ih5⟩ := ih
    by_cases hcap : ma.maxAllocations ≤ ma.allocations.length % 2 ^ 32
    · simp only [MemoryAllocator.allocate, if_pos hcap]
      exact ⟨ih1, ih2, ih3, ih4, ih5⟩
    · cases o with
      | failure e =>
        simp only [MemoryAllocator.allocate, if_neg hcap]
        exact ⟨ih1, ih2, ih3, ih4, ih5⟩
      | success key size =>
        obtain ⟨hkey, hsize⟩ := hfresh key size rfl
        simp only [MemoryAllocator.allocate, if_neg hcap, MemoryAllocator.record]
        have h32 : (2 : Nat) ^ 32 = 4294967296 := by norm_num
        refine ⟨?_, ?_, ih3, ?_, ?_⟩
        · dsimp only
          rw [sumVals_cons, ih1, Nat.mod_add_mod, Nat.add_comm]
        · dsimp only [List.length_cons]
          rw [h32] at hcap
          omega
        · intro e he
          rcases List.mem_cons.mp he with rfl | ht
          · exact hsize
          · exact ih4 e ht
        · dsimp only
          rw [List.map_cons]
          refine List.nodup_cons.mpr ⟨?_, ih5⟩
          intro hmem
          obtain ⟨e, hmem2, hfst⟩ := List.mem_map.mp hmem
          have hfnone : ma.allocations.find? (fun e => e.1 == key) = none := by
            unfold MemoryAllocator.lookup at hkey
            cases hf : ma.allocations.find? (fun e => e.1 == key) with
            | none => rfl
            | some x => rw [hf] at hkey; cases hkey
          have := List.find?_eq_none.mp hfnone e hmem2
          simp only [beq_iff_eq] at this
          exact this hfst
  | @free ma a h hown ih =>
    obtain ⟨ih1, ih2, ih3, ih4, ih5⟩ := ih
    cases a with
    | none =>
      simp only [MemoryAllocator.freeAlloc]
      exact ⟨ih1, ih2, ih3, ih4, ih5⟩
    | some r =>
      obtain ⟨hrw, hor⟩ := hown r rfl
      cases hlk : ma.lookup r.key with
      | none =>
        simp only [MemoryAllocator.freeAlloc, hlk]
        exact ⟨ih1, ih2, ih3, ih4, ih5⟩
      | some s =>
        have hs : s = r.size := by
          rcases hor with h0 | h0
          · rw [hlk] at h0; cases h0
          · rw [hlk] at h0; injection h0
        obtain ⟨e, hfe⟩ : ∃ e, ma.allocations.find? (fun x => x.1 == r.key) = some e := by
          unfold MemoryAllocator.lookup at hlk
          cases hf : ma.allocations.find? (fun x => x.1 == r.key) with
          | none => rw [hf] at hlk; cases hlk
          | some x => exact ⟨x, rfl⟩
        have hpe := List.find?_some hfe
        have hme : e ∈ ma.allocations := List.mem_of_find?_eq_some hfe
        obtain ⟨e2, l1, l2, hl1, hpe2, hdecomp, herase⟩ :=
          @List.exists_of_eraseP _ (fun x => x.1 == r.key) ma.allocations e hme hpe
        have hl1none : l1.find? (fun x => x.1 == r.key) = none :=
          List.find?_eq_none.mpr hl1
        have hfind2 : ma.allocations.find? (fun x => x.1 == r.key) = some e2 := by
          rw [hdecomp, List.find?_append, hl1none, List.find?_cons, hpe2]
          rfl
        have he2 : e2.2 = r.size := by
          unfold MemoryAllocator.lookup at hlk
          rw [hfind2] at hlk
          rw [← hs]
          simpa using hlk
        have hsubl : List.Sublist (ma.allocations.eraseP (fun x => x.1 == r.key))
            ma.allocations := List.eraseP_sublist _
        simp only [MemoryAllocator.freeAlloc, hlk]
        have hW : W = 18446744073709551616 := by norm_num [W]
        refine ⟨?_, ?_, ih3, ?_, ?_⟩
        · dsimp only
          rw [herase, sumVals_append]
          rw [hdecomp, sumVals_append, sumVals_cons] at ih1
          rw [ih1, he2, hW]
          rw [hW] at hrw
          omega
        · dsimp only
          have hlen := hsubl.length_le
          omega
        · intro x hx
          exact ih4 x (hsubl.mem hx)
        · exact ih5.sublist (hsubl.map Prod.fst)

/-- C3: after every `Allocate`/`Free` call in any sequence starting from a new
allocator, `totalAllocated` (a `uint64`) equals the sum of the `Size` fields of the
live entries of the allocation table (reduced mod `2 ^ 64`, which is the sum itself
whenever it is in `uint64` range), and the number of entries never exceeds
`maxAllocations`. -/
theorem allocator_conservation (ma : MemoryAllocator) (h : Reaches ma) :
    ma.totalAllocated = sumVals ma.allocations % W
      ∧ (sumVals ma.allocations < W → ma.totalAllocated = sumVals ma.allocations)
      ∧ ma.allocations.length ≤ ma.maxAllocations := by
  obtain ⟨h1, h2, -, -, -⟩ := reaches_invariant ma h
  refine ⟨h1, ?_, h2⟩
  intro hlt
  rw [h1, Nat.mod_eq_of_lt hlt]

/-- Witness for C3 after one recorded allocation of 64 bytes under key 1. -/
theorem allocator_conservation_witness :
    (newMemoryAllocator.allocate (.success 1 64)).2.totalAllocated
        = sumVals (newMemoryAllocator.allocate (.success 1 64)).2.allocations % W
      ∧ (sumVals (newMemoryAllocator.allocate (.success 1 64)).2.allocations < W →
          (newMemoryAllocator.allocate (.success 1 64)).2.totalAllocated
            = sumVals (newMemoryAllocator.allocate (.success 1 64)).2.allocations)
      ∧ (newMemoryAllocator.allocate (.success 1 64)).2.allocations.length
        ≤ (newMemoryAllocator.allocate (.success 1 64)).2.maxAllocations :=
  allocator_conservation _
    (Reaches.alloc (.success 1 64) Reaches.init
      (by intro key size hks; cases hks; exact ⟨rfl, by decide⟩))

/-- C8: whenever the allocation table already holds at least `maxAllocations` live
entries (the table length is a `uint32`-range value), the next `Allocate` fails with
`TooManyAllocations` no matter what the pool machinery could have produced, the
allocator state is unchanged, and the default cap of a new allocator is 4096. -/
theorem allocate_cap_enforced (ma : MemoryAllocator) (o : AllocOutcome)
    (hcap : ma.maxAllocations ≤ ma.allocations.length)
    (hlen : ma.allocations.length < 2 ^ 32) :
    ma.allocate o = (.error .tooManyAllocations, ma)
      ∧ newMemoryAllocator.maxAllocations = 4096 := by
  refine ⟨?_, rfl⟩
  have hmod : ma.allocations.length % 2 ^ 32 = ma.allocations.length :=
    Nat.mod_eq_of_lt hlen
  simp only [MemoryAllocator.allocate, hmod, if_pos hcap]

/-- Witness for C8 at a one-entry allocator with cap 1. -/
theorem allocate_cap_enforced_witness :
    ({ allocations := [(1, 64)], totalAllocated := 64, maxAllocations := 1 }
        : MemoryAllocator).allocate (.success 2 64)
      = (.error .tooManyAllocations,
         { allocations := [(1, 64)], totalAllocated := 64, maxAllocations := 1 })
      ∧ newMemoryAllocator.maxAllocations = 4096 :=
  allocate_cap_enforced _ (.success 2 64) (by decide) (by decide)

/-- C10: `MemoryAllocator.Free` on a nil allocation, and on an allocation whose key is
absent from the table (already freed or foreign), returns an error and leaves the
allocation table and `totalAllocated` unchanged. (When the key is present, the code
deletes the entry first and only then delegates to `Pool.Free`, so an error arising in
the pool is returned after the table has changed; those errors are outside this
claim's two cases.) -/
theorem free_error_keeps_state (ma : MemoryAllocator) (r : AllocRef) :
    ma.freeAlloc none = (some .nilAllocation, ma)
      ∧ (ma.lookup r.key = none →
          ma.freeAlloc (some r) = (some .allocationNotFound, ma)) := by
  refine ⟨rfl, ?_⟩
  intro hnone
  simp only [MemoryAllocator.freeAlloc, hnone]

/-- Witness for C10 on a fresh allocator and an unknown key. -/
theorem free_error_keeps_state_witness :
    newMemoryAllocator.freeAlloc none = (some .nilAllocation, newMemoryAllocator)
      ∧ newMemoryAllocator.freeAlloc (some ⟨5, 7, none⟩)
        = (some .allocationNotFound, newMemoryAllocator) :=
  ⟨(free_error_keeps_state newMemoryAllocator ⟨5, 7, none⟩).1,
   (free_error_keeps_state newMemoryAllocator ⟨5, 7, none⟩).2 rfl⟩

end VkGo

namespace VkGo

/-- Masking with a single bit is nonzero exactly when that bit is set. -/
theorem and_two_pow_ne_zero_iff (bits i : Nat) :
    bits &&& 2 ^ i ≠ 0 ↔ bits.testBit i = true := by
  constructor
  · intro h
    by_contra hb
    apply h
    apply Nat.eq_of_testBit_eq
    intro j
    rw [Nat.testBit_land, Nat.testBit_two_pow, Nat.zero_testBit]
    by_cases hij : i = j
    · subst hij
      simp only [Bool.not_eq_true] at hb
      simp [hb]
    · simp [hij]
  · intro h hz
    have hbit : (bits &&& 2 ^ i).testBit i = true := by
      rw [Nat.testBit_land, h, Nat.testBit_two_pow_self]
      rfl
    rw [hz, Nat.zero_testBit] at hbit
    cases hbit

/-- For an index below 32, the `uint32` mask test of `findMemoryType` agrees with
`testBit` of the request's type bitmask. -/
theorem typeEnabled_iff (bits i : Nat) (h : i < 32) :
    typeEnabled bits i = true ↔ bits.testBit i = true := by
  unfold typeEnabled
  have hsh : (1 <<< i) % 2 ^ 32 = 2 ^ i := by
    rw [Nat.shiftLeft_eq, Nat.one_mul]
    exact Nat.mod_eq_of_lt (Nat.pow_lt_pow_right (by norm_num) h)
  rw [hsh, bne_iff_ne]
  exact and_two_pow_ne_zero_iff bits i

/-- A hit of `find?` over `range n` is the least index satisfying the predicate. -/
theorem find?_range_some {n i : Nat} {p : Nat → Bool}
    (h : (List.range n).find? p = some i) :
    i < n ∧ p i = true ∧ ∀ j, j < i → p j = false := by
  induction n with
  | zero => simp at h
  | succ n ih =>
    rw [List.range_succ, List.find?_append] at h
    cases hfl : (List.range n).find? p with
    | some k =>
      rw [hfl, Option.or_some] at h
      have hk : k = i := by injection h
      subst hk
      obtain ⟨h1, h2, h3⟩ := ih hfl
      exact ⟨by omega, h2, h3⟩
    | none =>
      rw [hfl, Option.none_or] at h
      cases hpn : p n with
      | true =>
        simp only [List.find?_cons, hpn, List.find?_nil] at h
        have hn : n = i := by injection h
        subst hn
        refine ⟨by omega, hpn, ?_⟩
        intro j hj
        have := List.find?_eq_none.mp hfl j (List.mem_range.mpr hj)
        simpa using this
      | false =>
        simp only [List.find?_cons, hpn, List.find?_nil] at h
        cases h

/-- A miss of `find?` over `range n` means every index below `n` fails the
predicate. -/
theorem find?_range_none {n : Nat} {p : Nat → Bool}
    (h : (List.range n).find? p = none) : ∀ j, j < n → p j = false := by
  intro j hj
  have := List.find?_eq_none.mp h j (List.mem_range.mpr hj)
  simpa using this

/-- The Boolean first-pass test of `findMemoryType` means: enabled with the flags a
superset of both the required and the preferred bits. -/
theorem firstPass_iff (memProps : PhysicalDeviceMemoryProperties) (bits rq pf i : Nat)
    (h : i < 32) :
    (typeEnabled bits i &&
        (typeFlags memProps i &&& rq == rq) &&
        (typeFlags memProps i &&& pf == pf)) = true
      ↔ (passOk memProps bits rq i ∧ passOk memProps bits pf i) := by
  simp only [Bool.and_eq_true, beq_iff_eq, typeEnabled_iff bits i h, passOk]
  tauto

/-- The Boolean second-pass test of `findMemoryType` means: enabled with the flags a
superset of the required bits. -/
theorem secondPass_iff (memProps : PhysicalDeviceMemoryProperties) (bits rq i : Nat)
    (h : i < 32) :
    (typeEnabled bits i && (typeFlags memProps i &&& rq == rq)) = true
      ↔ passOk memProps bits rq i := by
  simp only [Bool.and_eq_true, beq_iff_eq, typeEnabled_iff bits i h, passOk]

end VkGo

namespace VkGo

/-- C7: `findMemoryType` resolves the memory type in two passes over the device's
memory types masked by `requirements.MemoryTypeBits`, after folding the usage-derived
property bits into the explicit required/preferred flags: a returned index is either
the smallest enabled index whose flags contain both the required and the preferred
bits, or — when no in-range index satisfies that — the smallest enabled index whose
flags contain just the required bits; and the call fails, with
`noSuitableMemoryType`, exactly when no enabled in-range index has flags containing
the required bits. -/
theorem find_memory_type_two_pass (memProps : PhysicalDeviceMemoryProperties)
    (requirements : MemoryRequirements) (createInfo : AllocationCreateInfo)
    (hcount : memProps.memoryTypeCount ≤ 32) :
    (∀ i, findMemoryType memProps requirements createInfo = .ok i →
        i < memProps.memoryTypeCount
        ∧ ((passOk memProps requirements.memoryTypeBits (resolvedFlags createInfo).1 i
            ∧ passOk memProps requirements.memoryTypeBits (resolvedFlags createInfo).2 i
            ∧ ∀ j, j < i → ¬(passOk memProps requirements.memoryTypeBits (resolvedFlags createInfo).1 j ∧ passOk memProps requirements.memoryTypeBits (resolvedFlags createInfo).2 j))
          ∨ ((∀ j, j < memProps.memoryTypeCount → ¬(passOk memProps requirements.memoryTypeBits (resolvedFlags createInfo).1 j ∧ passOk memProps requirements.memoryTypeBits (resolvedFlags createInfo).2 j))
            ∧ passOk memProps requirements.memoryTypeBits (resolvedFlags createInfo).1 i
            ∧ ∀ j, j < i → ¬passOk memProps requirements.memoryTypeBits (resolvedFlags createInfo).1 j)))
      ∧ (findMemoryType memProps requirements createInfo = .error .noSuitableMemoryType
          ↔ ∀ i, i < memProps.memoryTypeCount → ¬passOk memProps requirements.memoryTypeBits (resolvedFlags createInfo).1 i) := by
  constructor
  · intro i hok
    cases h1 : (List.range memProps.memoryTypeCount).find? (fun i =>
      typeEnabled requirements.memoryTypeBits i &&
      (typeFlags memProps i &&& (resolvedFlags createInfo).1 == (resolvedFlags createInfo).1) &&
      (typeFlags memProps i &&& (resolvedFlags createInfo).2 == (resolvedFlags createInfo).2)) with
    | some k =>
      simp only [findMemoryType, h1, Except.ok.injEq] at hok
      subst hok
      obtain ⟨hlt, hp, hleast⟩ := find?_range_some h1
      have hiff := firstPass_iff memProps requirements.memoryTypeBits
        (resolvedFlags createInfo).1 (resolvedFlags createInfo).2 k (by omega)
      refine ⟨hlt, .inl ⟨(hiff.mp hp).1, (hiff.mp hp).2, ?_⟩⟩
      intro j hj hcontra
      have hjiff := firstPass_iff memProps requirements.memoryTypeBits
        (resolvedFlags createInfo).1 (resolvedFlags createInfo).2 j (by omega)
      rw [hleast j hj] at hjiff
      exact absurd (hjiff.mpr hcontra) (by simp)
    | none =>
      cases h2 : (List.range memProps.memoryTypeCount).find? (fun i =>
      typeEnabled requirements.memoryTypeBits i &&
      (typeFlags memProps i &&& (resolvedFlags createInfo).1 == (resolvedFlags createInfo).1)) with
      | some k =>
        simp only [findMemoryType, h1, h2, Except.ok.injEq] at hok
        subst hok
        obtain ⟨hlt, hp, hleast⟩ := find?_range_some h2
        have hiff := secondPass_iff memProps requirements.memoryTypeBits
          (resolvedFlags createInfo).1 k (by omega)
        refine ⟨hlt, .inr ⟨?_, hiff.mp hp, ?_⟩⟩
        · intro j hj hcontra
          have hjiff := firstPass_iff memProps requirements.memoryTypeBits
            (resolvedFlags createInfo).1 (resolvedFlags createInfo).2 j (by omega)
          rw [find?_range_none h1 j hj] at hjiff
          exact absurd (hjiff.mpr hcontra) (by simp)
        · intro j hj hcontra
          have hjiff := secondPass_iff memProps requirements.memoryTypeBits
            (resolvedFlags createInfo).1 j (by omega)
          rw [hleast j hj] at hjiff
          exact absurd (hjiff.mpr hcontra) (by simp)
      | none =>
        simp only [findMemoryType, h1, h2] at hok
        exact Except.noConfusion hok
  · constructor
    · intro herr j hj hcontra
      cases h1 : (List.range memProps.memoryTypeCount).find? (fun i =>
      typeEnabled requirements.memoryTypeBits i &&
      (typeFlags memProps i &&& (resolvedFlags createInfo).1 == (resolvedFlags createInfo).1) &&
      (typeFlags memProps i &&& (resolvedFlags createInfo).2 == (resolvedFlags createInfo).2)) with
      | some k =>
        simp only [findMemoryType, h1] at herr
        exact Except.noConfusion herr
      | none =>
        cases h2 : (List.range memProps.memoryTypeCount).find? (fun i =>
      typeEnabled requirements.memoryTypeBits i &&
      (typeFlags memProps i &&& (resolvedFlags createInfo).1 == (resolvedFlags createInfo).1)) with
        | some k =>
          simp only [findMemoryType, h1, h2] at herr
          exact Except.noConfusion herr
        | none =>
          have hjiff := secondPass_iff memProps requirements.memoryTypeBits
            (resolvedFlags createInfo).1 j (by omega)
          rw [find?_range_none h2 j hj] at hjiff
          exact absurd (hjiff.mpr hcontra) (by simp)
    · intro hall
      have h2 : (List.range memProps.memoryTypeCount).find? (fun i =>
      typeEnabled requirements.memoryTypeBits i &&
      (typeFlags memProps i &&& (resolvedFlags createInfo).1 == (resolvedFlags createInfo).1)) = none := by
        refine List.find?_eq_none.mpr ?_
        intro x hx hpx
        have hxc : x < memProps.memoryTypeCount := List.mem_range.mp hx
        have hxiff := secondPass_iff memProps requirements.memoryTypeBits
          (resolvedFlags createInfo).1 x (by omega)
        exact hall x hxc (hxiff.mp hpx)
      have h1 : (List.range memProps.memoryTypeCount).find? (fun i =>
      typeEnabled requirements.memoryTypeBits i &&
      (typeFlags memProps i &&& (resolvedFlags createInfo).1 == (resolvedFlags createInfo).1) &&
      (typeFlags memProps i &&& (resolvedFlags createInfo).2 == (resolvedFlags createInfo).2)) = none := by
        refine List.find?_eq_none.mpr ?_
        intro x hx hpx
        have hxc : x < memProps.memoryTypeCount := List.mem_range.mp hx
        have hxiff := firstPass_iff memProps requirements.memoryTypeBits
          (resolvedFlags createInfo).1 (resolvedFlags createInfo).2 x (by omega)
        exact hall x hxc (hxiff.mp hpx).1
      simp only [findMemoryType, h1, h2]

end VkGo

namespace VkGo

/-- Witness for C7 on a two-type device (host-visible at index 0, host-visible plus
device-local at index 1) with a `CPUToGPU` request over the full type mask. -/
theorem find_memory_type_two_pass_witness :
    (∀ i, findMemoryType ({ memoryTypeCount := 2, memoryTypes := [⟨2⟩, ⟨3⟩] } : PhysicalDeviceMemoryProperties) ({ size := 1, alignment := 1, memoryTypeBits := 3 } : MemoryRequirements) ({ usage := .cpuToGPU, requiredFlags := 0, preferredFlags := 0 } : AllocationCreateInfo) = .ok i →
        i < ({ memoryTypeCount := 2, memoryTypes := [⟨2⟩, ⟨3⟩] } : PhysicalDeviceMemoryProperties).memoryTypeCount
        ∧ ((passOk ({ memoryTypeCount := 2, memoryTypes := [⟨2⟩, ⟨3⟩] } : PhysicalDeviceMemoryProperties) ({ size := 1, alignment := 1, memoryTypeBits := 3 } : MemoryRequirements).memoryTypeBits (resolvedFlags ({ usage := .cpuToGPU, requiredFlags := 0, preferredFlags := 0 } : AllocationCreateInfo)).1 i
            ∧ passOk ({ memoryTypeCount := 2, memoryTypes := [⟨2⟩, ⟨3⟩] } : PhysicalDeviceMemoryProperties) ({ size := 1, alignment := 1, memoryTypeBits := 3 } : MemoryRequirements).memoryTypeBits (resolvedFlags ({ usage := .cpuToGPU, requiredFlags := 0, preferredFlags := 0 } : AllocationCreateInfo)).2 i
            ∧ ∀ j, j < i → ¬(passOk ({ memoryTypeCount := 2, memoryTypes := [⟨2⟩, ⟨3⟩] } : PhysicalDeviceMemoryProperties) ({ size := 1, alignment := 1, memoryTypeBits := 3 } : MemoryRequirements).memoryTypeBits (resolvedFlags ({ usage := .cpuToGPU, requiredFlags := 0, preferredFlags := 0 } : AllocationCreateInfo)).1 j ∧ passOk ({ memoryTypeCount := 2, memoryTypes := [⟨2⟩, ⟨3⟩] } : PhysicalDeviceMemoryProperties) ({ size := 1, alignment := 1, memoryTypeBits := 3 } : MemoryRequirements).memoryTypeBits (resolvedFlags ({ usage := .cpuToGPU, requiredFlags := 0, preferredFlags := 0 } : AllocationCreateInfo)).2 j))
          ∨ ((∀ j, j < ({ memoryTypeCount := 2, memoryTypes := [⟨2⟩, ⟨3⟩] } : PhysicalDeviceMemoryProperties).memoryTypeCount → ¬(passOk ({ memoryTypeCount := 2, memoryTypes := [⟨2⟩, ⟨3⟩] } : PhysicalDeviceMemoryProperties) ({ size := 1, alignment := 1, memoryTypeBits := 3 } : MemoryRequirements).memoryTypeBits (resolvedFlags ({ usage := .cpuToGPU, requiredFlags := 0, preferredFlags := 0 } : AllocationCreateInfo)).1 j ∧ passOk ({ memoryTypeCount := 2, memoryTypes := [⟨2⟩, ⟨3⟩] } : PhysicalDeviceMemoryProperties) ({ size := 1, alignment := 1, memoryTypeBits := 3 } : MemoryRequirements).memoryTypeBits (resolvedFlags ({ usage := .cpuToGPU, requiredFlags := 0, preferredFlags := 0 } : AllocationCreateInfo)).2 j))
            ∧ passOk ({ memoryTypeCount := 2, memoryTypes := [⟨2⟩, ⟨3⟩] } : PhysicalDeviceMemoryProperties) ({ size := 1, alignment := 1, memoryTypeBits := 3 } : MemoryRequirements).memoryTypeBits (resolvedFlags ({ usage := .cpuToGPU, requiredFlags := 0, preferredFlags := 0 } : AllocationCreateInfo)).1 i
            ∧ ∀ j, j < i → ¬passOk ({ memoryTypeCount := 2, memoryTypes := [⟨2⟩, ⟨3⟩] } : PhysicalDeviceMemoryProperties) ({ size := 1, alignment := 1, memoryTypeBits := 3 } : MemoryRequirements).memoryTypeBits (resolvedFlags ({ usage := .cpuToGPU, requiredFlags := 0, preferredFlags := 0 } : AllocationCreateInfo)).1 j)))
      ∧ (findMemoryType ({ memoryTypeCount := 2, memoryTypes := [⟨2⟩, ⟨3⟩] } : PhysicalDeviceMemoryProperties) ({ size := 1, alignment := 1, memoryTypeBits := 3 } : MemoryRequirements) ({ usage := .cpuToGPU, requiredFlags := 0, preferredFlags := 0 } : AllocationCreateInfo) = .error .noSuitableMemoryType
          ↔ ∀ i, i < ({ memoryTypeCount := 2, memoryTypes := [⟨2⟩, ⟨3⟩] } : PhysicalDeviceMemoryProperties).memoryTypeCount → ¬passOk ({ memoryTypeCount := 2, memoryTypes := [⟨2⟩, ⟨3⟩] } : PhysicalDeviceMemoryProperties) ({ size := 1, alignment := 1, memoryTypeBits := 3 } : MemoryRequirements).memoryTypeBits (resolvedFlags ({ usage := .cpuToGPU, requiredFlags := 0, preferredFlags := 0 } : AllocationCreateInfo)).1 i) :=
  find_memory_type_two_pass ({ memoryTypeCount := 2, memoryTypes := [⟨2⟩, ⟨3⟩] } : PhysicalDeviceMemoryProperties) ({ size := 1, alignment := 1, memoryTypeBits := 3 } : MemoryRequirements) ({ usage := .cpuToGPU, requiredFlags := 0, preferredFlags := 0 } : AllocationCreateInfo) (by decide)

end VkGo
